import Mathlib

/-!
Verification of the serology-COVID19 registration pipeline specification.

The pipeline registers an idealized grid of array spots to spot centers
detected in a photographed assay well.  The caller
(`array_analyzer/workflows/registration_workflow.py`) selects well images,
builds a reference grid, runs a particle-filter registration engine and maps
the recovered 2x3 similarity transform over the full grid.

Real numbers are embedded as rationals (`ℚ`), so all geometric reasoning is
exact.  The registration engine itself (`array_analyzer.transform.
point_registration`) is not part of the sources at hand; it is modelled from
the specification, with every modelled definition marked as such in its doc
comment.  Rotations are represented by the rational parametrization of the
unit circle, which keeps the engine executable while preserving the exact
trigonometric identity `cos² + sin² = 1`.
-/

namespace Serology

/-- A 2-D point with rational coordinates, as used for spot centers and grid
positions (image pixel space). -/
@[ext]
structure Point where
  x : ℚ
  y : ℚ
deriving DecidableEq

/-- A 2x3 affine transform matrix `[[m00 m01 m02], [m10 m11 m12]]`, the shape
returned by the registration engine and consumed by `cv.transform`. -/
@[ext]
structure Transform where
  m00 : ℚ
  m01 : ℚ
  m02 : ℚ
  m10 : ℚ
  m11 : ℚ
  m12 : ℚ
deriving DecidableEq

/-- Apply a 2x3 affine matrix to one point: `p' = A·p + t`. -/
def applyPoint (t : Transform) (p : Point) : Point :=
  ⟨t.m00 * p.x + t.m01 * p.y + t.m02, t.m10 * p.x + t.m11 * p.y + t.m12⟩

/-- `cv.transform` as called on line 142 of `registration_workflow.py`:
OpenCV applies the 2x3 matrix to every point of the point set. -/
def cvTransform (ps : List Point) (t : Transform) : List Point :=
  ps.map (applyPoint t)

/-- Determinant of the 2x2 linear part of a 2x3 transform. -/
def detLinear (t : Transform) : ℚ :=
  t.m00 * t.m11 - t.m01 * t.m10

/-- Inverse of an affine transform `[A | b]`, namely `[A⁻¹ | -A⁻¹·b]`,
meaningful when `detLinear t ≠ 0`. -/
def invTransform (t : Transform) : Transform :=
  ⟨t.m11 / detLinear t, -t.m01 / detLinear t,
    (t.m01 * t.m12 - t.m11 * t.m02) / detLinear t,
    -t.m10 / detLinear t, t.m00 / detLinear t,
    (t.m10 * t.m02 - t.m00 * t.m12) / detLinear t⟩

/-- The identity 2x3 transform. -/
def idTransform : Transform := ⟨1, 0, 0, 0, 1, 0⟩

/-- Rational cosine of the rotation whose tangent-half-angle parameter is
`u`: the first coordinate of the rational point `((1-u²)/(1+u²), 2u/(1+u²))`
on the unit circle. -/
def cosQ (u : ℚ) : ℚ := (1 - u ^ 2) / (1 + u ^ 2)

/-- Rational sine companion of `cosQ`. -/
def sinQ (u : ℚ) : ℚ := 2 * u / (1 + u ^ 2)

/-- The typed failure taxonomy of the registration engine (spec section 7):
`InsufficientObservations`, `RegistrationDivergence`, `InvalidTransform`. -/
inductive RegFailure where
  | insufficientObservations
  | registrationDivergence
  | invalidTransform
deriving DecidableEq

/-- The per-axis standard deviations `STDS = [x, y, angle, scale]` of
`registration_workflow.py`. -/
structure Stds where
  x : ℚ
  y : ℚ
  angle : ℚ
  scale : ℚ
deriving DecidableEq

/-- A particle: a similarity-transform hypothesis `(tx, ty, θ, s)` together
with a scalar weight.  The rotation angle is carried as the rational
parameter `angle`, the hypothesised rotation being
`(cosQ angle, sinQ angle)`. -/
structure Particle where
  tx : ℚ
  ty : ℚ
  angle : ℚ
  scale : ℚ
  weight : ℚ
deriving DecidableEq

/-- Fallback particle used when selecting from an empty population. -/
def defaultParticle : Particle := ⟨0, 0, 0, 1, 0⟩

/-- The similarity transform encoded by a particle:
`[[s·cosθ, -s·sinθ, tx], [s·sinθ, s·cosθ, ty]]`. -/
def particleTransform (p : Particle) : Transform :=
  ⟨p.scale * cosQ p.angle, -(p.scale * sinQ p.angle), p.tx,
    p.scale * sinQ p.angle, p.scale * cosQ p.angle, p.ty⟩

/-- One step of a linear congruential generator modulo `2^31`; the engine's
deterministic random-number stream is derived from it. -/
def lcgNext (s : ℕ) : ℕ := (1103515245 * s + 12345) % 2 ^ 31

/-- The `n`-th state of the stream seeded with `seed`. -/
def rngStream (seed : ℕ) : ℕ → ℕ
  | 0 => lcgNext seed
  | n + 1 => lcgNext (rngStream seed n)

/-- The `n`-th pseudo-random rational in `[0, 1)`. -/
def randUnit (seed n : ℕ) : ℚ := (rngStream seed n : ℚ) / 2 ^ 31

/-- The `n`-th pseudo-random rational in `[-1, 1)`, the model's surrogate for
a standard normal draw. -/
def randSym (seed n : ℕ) : ℚ := 2 * randUnit seed n - 1

/-- Modelled from the spec: `create_gaussian_particles` of the missing
`array_analyzer.transform.point_registration` module (spec section 4.2).
Draws `n` independent samples around `(mean, angleMean, scaleMean)` scaled by
the per-axis `stds`, from the deterministic stream of `seed`; every weight
initializes to `1/n`. -/
def create_gaussian_particles (seed : ℕ) (mean : Point) (stds : Stds)
    (scaleMean angleMean : ℚ) (n : ℕ) : List Particle :=
  (List.range n).map fun i =>
    { tx := mean.x + stds.x * randSym seed (4 * i)
      ty := mean.y + stds.y * randSym seed (4 * i + 1)
      angle := angleMean + stds.angle * randSym seed (4 * i + 2)
      scale := scaleMean + stds.scale * randSym seed (4 * i + 3)
      weight := 1 / (n : ℚ) }

/-- Squared Euclidean distance between two points. -/
def sqDist (p q : Point) : ℚ := (p.x - q.x) ^ 2 + (p.y - q.y) ^ 2

/-- Squared distance from `p` to its Euclidean nearest neighbour among the
observed points (spec section 4.3: no mutual-exclusivity constraint). -/
def minSqDist (p : Point) : List Point → ℚ
  | [] => 0
  | [q] => sqDist p q
  | q :: r :: rest => min (sqDist p q) (minSqDist p (r :: rest))

/-- Modelled from the spec: the per-point likelihood kernel of the
observation model (spec section 4.3).  The spec leaves the exact kernel
shape open (section 9); this model uses the strictly positive rational
kernel `1 / (1 + d² / (σ² + 1))`, decreasing in the squared residual. -/
def likeKernel (sigma d2 : ℚ) : ℚ := 1 / (1 + d2 / (sigma ^ 2 + 1))

/-- Modelled from the spec: the observation likelihood `score` (spec section
4.3) — apply the particle's transform to each fiducial, match it to its
nearest observed point, and take the product of per-point likelihoods. -/
def scoreParticle (stds : Stds) (fid spots : List Point) (p : Particle) : ℚ :=
  (fid.map fun f =>
    likeKernel stds.x (minSqDist (applyPoint (particleTransform p) f) spots)).prod

/-- Modelled from the spec: normalization at the end of the Weighting phase
(spec section 4.4) — weights normalize to sum 1; if the total mass is zero
the engine fails with `RegistrationDivergence`. -/
def normalizeWeights (ps : List Particle) : Except RegFailure (List Particle) :=
  if (ps.map Particle.weight).sum = 0 then .error .registrationDivergence
  else .ok (ps.map fun p => { p with weight := p.weight / (ps.map Particle.weight).sum })

/-- Modelled from the spec: the Weighting phase (spec section 4.4) — every
particle is scored against the fixed fiducial/observed pair and the weights
normalize to sum 1. -/
def weightPhase (stds : Stds) (fid spots : List Point) (ps : List Particle) :
    Except RegFailure (List Particle) :=
  normalizeWeights (ps.map fun p => { p with weight := scoreParticle stds fid spots p })

/-- Walk the population, consuming weight mass until the target falls inside
a particle's slot; the selection step of multinomial resampling. -/
def pickGo (target : ℚ) : List Particle → Particle
  | [] => defaultParticle
  | [p] => p
  | p :: q :: rest => if target < p.weight then p else pickGo (target - p.weight) (q :: rest)

/-- Modelled from the spec: the Resampling phase (spec section 4.4) —
particles are redrawn with replacement proportional to weight, producing a
population of the same size with uniform weights. -/
def resamplePhase (seed off : ℕ) (ps : List Particle) : List Particle :=
  let total := (ps.map Particle.weight).sum
  (List.range ps.length).map fun i =>
    { pickGo (randUnit seed (off + i) * total) ps with weight := 1 / (ps.length : ℚ) }

/-- Modelled from the spec: the Perturbing phase (spec section 4.4) —
Gaussian jitter fixed at a tenth of `stds` is added to each resampled
particle's parameters to maintain diversity. -/
def perturbPhase (seed off : ℕ) (stds : Stds) (ps : List Particle) : List Particle :=
  ps.mapIdx fun i p =>
    { p with
      tx := p.tx + stds.x / 10 * randSym seed (off + 4 * i)
      ty := p.ty + stds.y / 10 * randSym seed (off + 4 * i + 1)
      angle := p.angle + stds.angle / 10 * randSym seed (off + 4 * i + 2)
      scale := p.scale + stds.scale / 10 * randSym seed (off + 4 * i + 3) }

/-- Modelled from the spec: one `Weighting → Resampling → Perturbing` cycle
of the filter loop (spec section 4.4), reading disjoint segments of the
random stream per iteration. -/
def filterStep (seed : ℕ) (stds : Stds) (fid spots : List Point) (iter : ℕ)
    (ps : List Particle) : Except RegFailure (List Particle) :=
  match weightPhase stds fid spots ps with
  | .error e => .error e
  | .ok ws =>
    let base := 1000 + iter * (8 * ps.length)
    .ok (perturbPhase seed (base + ps.length) stds (resamplePhase seed base ws))

/-- Modelled from the spec: the filter loop, iterating `filterStep` a fixed
number of times (spec section 4.4). -/
def filterLoop (seed : ℕ) (stds : Stds) (fid spots : List Point) :
    ℕ → ℕ → List Particle → Except RegFailure (List Particle)
  | _, 0, ps => .ok ps
  | iter, n + 1, ps =>
    match filterStep seed stds fid spots iter ps with
    | .error e => .error e
    | .ok qs => filterLoop seed stds fid spots (iter + 1) n qs

/-- Weighted mean of the population's parameters, the transform estimate
extracted in the Converged state (spec section 4.4). -/
def weightedMeanParticle (ps : List Particle) : Particle :=
  { tx := (ps.map fun p => p.weight * p.tx).sum
    ty := (ps.map fun p => p.weight * p.ty).sum
    angle := (ps.map fun p => p.weight * p.angle).sum
    scale := (ps.map fun p => p.weight * p.scale).sum
    weight := 1 }

/-- Configuration of the filter: the fixed iteration count of the loop (the
spec leaves the exact stopping criterion open, section 9). -/
structure FilterConfig where
  iters : ℕ
deriving DecidableEq

/-- Modelled from the spec: `particle_filter` of the missing
`array_analyzer.transform.point_registration` module (spec sections 4.4 and
7).  Rejects degenerate observed sets (0 or 1 point) with
`InsufficientObservations`, otherwise runs the filter loop and returns the
transform of the weighted mean of the final weighted population. -/
def particle_filter (seed : ℕ) (cfg : FilterConfig) (fiducial_coords spot_coords : List Point)
    (particles : List Particle) (stds : Stds) : Except RegFailure Transform :=
  if spot_coords.length ≤ 1 then .error .insufficientObservations
  else
    match filterLoop seed stds fiducial_coords spot_coords 0 cfg.iters particles with
    | .error e => .error e
    | .ok final =>
      match weightPhase stds fiducial_coords spot_coords final with
      | .error e => .error e
      | .ok weighted => .ok (particleTransform (weightedMeanParticle weighted))

/-- The particle trajectory of a run: the population after each number of
iterations up to the configured count. -/
def particleTrajectory (seed : ℕ) (cfg : FilterConfig) (stds : Stds)
    (fid spots : List Point) (ps : List Particle) :
    List (Except RegFailure (List Particle)) :=
  (List.range (cfg.iters + 1)).map fun k => filterLoop seed stds fid spots 0 k ps

/-- Modelled from the spec: `create_reference_grid` of the missing
`array_analyzer.transform.point_registration` module (spec section 4.1) —
a rows×cols rectangular lattice with uniform spacing, centered at the given
point, listed in row-major order. -/
def create_reference_grid (mean_point : Point) (nbr_grid_rows nbr_grid_cols : ℕ)
    (spot_dist : ℚ) : List Point :=
  (List.range nbr_grid_rows).flatMap fun (r : ℕ) =>
    (List.range nbr_grid_cols).map fun (c : ℕ) =>
      ⟨mean_point.x + ((c : ℚ) - ((nbr_grid_cols : ℚ) - 1) / 2) * spot_dist,
        mean_point.y + ((r : ℚ) - ((nbr_grid_rows : ℚ) - 1) / 2) * spot_dist⟩

/-- The four-parameter logistic function of `interpretation/plotting.py`
(`fourPL(x, A, B, C, D) = (A-D)/(1+(x/C)**B) + D`), with the exponent `B`
embedded as an integer so the function stays inside `ℚ`. -/
def fourPL (x A : ℚ) (B : ℤ) (C D : ℚ) : ℚ :=
  (A - D) / (1 + (x / C) ^ B) + D

/-- Python-level error raised by the per-image loop of
`registration_workflow.py` while computing sort keys. -/
inductive PyErr where
  | valueError
deriving DecidableEq

/-- Does `pat` occur as a prefix of `l`? -/
def startsWithL : List Char → List Char → Bool
  | [], _ => true
  | _ :: _, [] => false
  | p :: ps, c :: cs => p == c && startsWithL ps cs

/-- Does `pat` occur as a contiguous substring of `l`?  Models Python's
`pat in file`. -/
def hasSub (pat : List Char) : List Char → Bool
  | [] => pat.isEmpty
  | c :: rest => startsWithL pat (c :: rest) || hasSub pat rest

/-- The extension substrings tested on line 84 of
`registration_workflow.py`. -/
def imageExts : List (List Char) := [".png".toList, ".tif".toList, ".jpg".toList]

/-- Line 84: `'.png' in file or '.tif' in file or '.jpg' in file`. -/
def isImageName (f : String) : Bool :=
  imageExts.any fun e => hasSub e f.toList

/-- Line 87: `re.match(r'[A-P][0-9]{1,2}', file)` — a prefix match, so it
holds exactly when the first character is in `A..P` and the second is a
digit. -/
def isWellName (f : String) : Bool :=
  match f.toList with
  | c0 :: c1 :: _ => ('A' ≤ c0 && c0 ≤ 'P') && c1.isDigit
  | _ => false

/-- Digit run of a Python integer literal, with single underscores allowed
between digits (as `int` accepts); returns its value. -/
def pyDigitsGo (acc : ℕ) : List Char → Option ℕ
  | [] => some acc
  | '_' :: c :: rest =>
    if c.isDigit then pyDigitsGo (10 * acc + (c.toNat - '0'.toNat)) rest else none
  | c :: rest =>
    if c.isDigit then pyDigitsGo (10 * acc + (c.toNat - '0'.toNat)) rest else none

/-- Value of a nonempty digit run starting with a digit; `none` on anything
else. -/
def pyDigits (l : List Char) : Option ℕ :=
  match l with
  | [] => none
  | c :: _ => if c.isDigit then pyDigitsGo 0 l else none

/-- Python's `int(s)` on a string: strip surrounding spaces, optional sign,
then an underscore-grouped digit run; `ValueError` (here `none`)
otherwise. -/
def pyInt (l : List Char) : Option ℤ :=
  let t := ((l.dropWhile (· = ' ')).reverse.dropWhile (· = ' ')).reverse
  match t with
  | '+' :: r => (pyDigits r).map fun n => (n : ℤ)
  | '-' :: r => (pyDigits r).map fun n => -(n : ℤ)
  | r => (pyDigits r).map fun n => (n : ℤ)

/-- Python's slice `x[1:-4]`: the characters strictly between index 0 and
the last four. -/
def pySlice (l : List Char) : List Char :=
  (l.drop 1).take (l.length - 5)

/-- The sort key of line 90 (`(x[0], int(x[1:-4]))`), with parse failures
defaulted (the loop model checks parses separately, as CPython computes all
keys before sorting). -/
def keyOf (f : String) : Char × ℤ :=
  (f.toList.headD 'A', (pyInt (pySlice f.toList)).getD 0)

/-- Lexicographic comparison of sort keys: by leading letter, then by the
parsed numeric value — Python's tuple order on `(x[0], int(x[1:-4]))`. -/
def keyLe (f g : String) : Prop :=
  (keyOf f).1 < (keyOf g).1 ∨ ((keyOf f).1 = (keyOf g).1 ∧ (keyOf f).2 ≤ (keyOf g).2)

instance : DecidableRel keyLe := fun f g =>
  inferInstanceAs (Decidable (_ ∨ _ ∧ _))

instance : IsTotal String keyLe :=
  ⟨fun f g => by
    unfold keyLe
    rcases lt_trichotomy (keyOf f).1 (keyOf g).1 with h | h | h
    · exact Or.inl (Or.inl h)
    · rcases le_total (keyOf f).2 (keyOf g).2 with h2 | h2
      · exact Or.inl (Or.inr ⟨h, h2⟩)
      · exact Or.inr (Or.inr ⟨h.symm, h2⟩)
    · exact Or.inr (Or.inl h)⟩

instance : IsTrans String keyLe :=
  ⟨fun f g k hfg hgk => by
    unfold keyLe at *
    rcases hfg with h1 | ⟨h1, h1b⟩ <;> rcases hgk with h2 | ⟨h2, h2b⟩
    · exact Or.inl (h1.trans h2)
    · exact Or.inl (h2 ▸ h1)
    · exact Or.inl (h1 ▸ h2)
    · exact Or.inr ⟨h1.trans h2, h1b.trans h2b⟩⟩

/-- The files selected by lines 83-87 of `registration_workflow.py`: names
containing an image extension whose first two characters are a well
letter `A..P` and a digit. -/
def selectedWells (files : List String) : List String :=
  (files.filter fun f => isImageName f).filter fun f => isWellName f

/-- Lines 83-90 of `registration_workflow.py`: select the well images and
sort them with key `(x[0], int(x[1:-4]))`.  CPython's `list.sort` computes
every key before comparing, so a single unparsable key raises `ValueError`
and no file is processed. -/
def wellImagesOf (files : List String) : Except PyErr (List String) :=
  if (selectedWells files).all fun f => (pyInt (pySlice f.toList)).isSome
  then .ok (List.insertionSort keyLe (selectedWells files))
  else .error .valueError

/-- The per-image loop of `point_registration` (lines 92-212): each image is
registered in turn; the body contains no `try`/`except`, so a typed
registration failure propagates out of the loop. -/
def processBatch {α : Type} (reg : String → Except RegFailure α) :
    List String → Except RegFailure (List α)
  | [] => .ok []
  | img :: rest =>
    match reg img with
    | .error e => .error e
    | .ok v =>
      match processBatch reg rest with
      | .error e => .error e
      | .ok vs => .ok (v :: vs)

/-- A concrete registration outcome map: the well `A1.png` fails with
`InsufficientObservations`, every other well registers successfully. -/
def demoBatchReg : String → Except RegFailure Transform := fun img =>
  if img = "A1.png" then .error .insufficientObservations else .ok idTransform

/-- The `STDS` constant of `registration_workflow.py`:
`[100, 100, .1, .001]`. -/
def demoStds : Stds := ⟨100, 100, 1 / 10, 1 / 1000⟩

/-- A single-fiducial reference set for concrete evaluations. -/
def demoFid : List Point := [⟨0, 0⟩]

/-- A two-point observed set for concrete evaluations. -/
def demoSpots : List Point := [⟨0, 0⟩, ⟨1, 0⟩]

/-- A one-particle population at the identity hypothesis with unit weight. -/
def demoPop : List Particle := [⟨0, 0, 0, 1, 1⟩]

/-- The population `demoPop` after one Weighting phase. -/
def demoPopW : List Particle := [⟨0, 0, 0, 1, 1⟩]

/-- A zero-iteration filter configuration for concrete evaluations. -/
def demoCfg : FilterConfig := ⟨0⟩

/-- The transform returned by the zero-iteration filter run on `demoPop`:
the identity. -/
def demoT6 : Transform := ⟨1, 0, 0, 0, 1, 0⟩

/-- An invertible non-trivial similarity transform for concrete
evaluations. -/
def demoT7 : Transform := ⟨3, -4, 7, 4, 3, -2⟩

/-- A concrete point set for concrete evaluations. -/
def demoPs7 : List Point := [⟨1, 2⟩, ⟨-5, 1 / 3⟩, ⟨0, 0⟩]

/-- A concrete directory listing with wells `A9`, `A10`, `B1` and a
non-image file. -/
def demoFiles : List String := ["A10.png", "notes.txt", "A9.png", "B1.tif"]

/-- The rational unit-circle parametrization really lands on the unit
circle: `cosQ u ^ 2 + sinQ u ^ 2 = 1`. -/
theorem cosQ_sq_add_sinQ_sq (u : ℚ) : cosQ u ^ 2 + sinQ u ^ 2 = 1 := by
  have h : (1 : ℚ) + u ^ 2 ≠ 0 := by positivity
  unfold cosQ sinQ
  field_simp
  ring

/-- The transform encoded by a particle has `det = s²`. -/
theorem detLinear_particleTransform (p : Particle) :
    detLinear (particleTransform p) = p.scale ^ 2 := by
  have h := cosQ_sq_add_sinQ_sq p.angle
  simp only [detLinear, particleTransform]
  linear_combination p.scale ^ 2 * h

/-- Undoing an affine map on one point, given an invertible linear part. -/
theorem applyPoint_invTransform (t : Transform) (h : detLinear t ≠ 0) (p : Point) :
    applyPoint (invTransform t) (applyPoint t p) = p := by
  have hd : t.m00 * t.m11 - t.m01 * t.m10 ≠ 0 := by
    unfold detLinear at h; exact h
  unfold applyPoint invTransform detLinear
  ext <;> (simp only []; field_simp; ring)

/-- The squared nearest-neighbour distance is non-negative. -/
theorem minSqDist_nonneg (p : Point) (l : List Point) : 0 ≤ minSqDist p l := by
  induction l with
  | nil => simp [minSqDist]
  | cons q rest ih =>
    cases rest with
    | nil => unfold minSqDist sqDist; positivity
    | cons r rest2 =>
      unfold minSqDist
      have hq : 0 ≤ sqDist p q := by unfold sqDist; positivity
      exact le_min hq ih

/-- The likelihood kernel is non-negative on non-negative squared
residuals. -/
theorem likeKernel_nonneg (sigma d2 : ℚ) (h : 0 ≤ d2) : 0 ≤ likeKernel sigma d2 := by
  unfold likeKernel
  have h1 : (0 : ℚ) < sigma ^ 2 + 1 := by positivity
  have h2 : (0 : ℚ) ≤ d2 / (sigma ^ 2 + 1) := div_nonneg h h1.le
  have h3 : (0 : ℚ) < 1 + d2 / (sigma ^ 2 + 1) := by linarith
  exact (one_div_pos.mpr h3).le

/-- Particle scores are non-negative. -/
theorem scoreParticle_nonneg (stds : Stds) (fid spots : List Point) (p : Particle) :
    0 ≤ scoreParticle stds fid spots p := by
  unfold scoreParticle
  apply List.prod_nonneg
  intro a ha
  obtain ⟨f, _, rfl⟩ := List.mem_map.mp ha
  exact likeKernel_nonneg _ _ (minSqDist_nonneg _ _)

/-- Summing a list divided pointwise by a constant. -/
theorem sum_map_div (l : List ℚ) (c : ℚ) :
    (l.map fun a => a / c).sum = l.sum / c := by
  induction l with
  | nil => simp
  | cons a rest ih => simp [ih, add_div]

/-- Summing the lengths of equally sized blocks. -/
theorem sum_map_length_const {α β : Type} (l : List α) (m : ℕ) (f : α → List β)
    (h : ∀ a ∈ l, (f a).length = m) : (l.map (List.length ∘ f)).sum = l.length * m := by
  induction l with
  | nil => simp
  | cons a r ih =>
    have ha := h a (List.mem_cons_self a r)
    have hr : ∀ b ∈ r, (f b).length = m := fun b hb => h b (List.mem_cons_of_mem a hb)
    simp [Function.comp, ha, ih hr, Nat.succ_mul, Nat.add_comm]

/-- Claim C1: an observed point set with zero or one point makes the
registration call fail with `InsufficientObservations`; no transform is
returned. -/
theorem spec_C1_degenerate_rejection (seed : ℕ) (cfg : FilterConfig)
    (fid spots : List Point) (ps : List Particle) (stds : Stds)
    (h : spots.length = 0 ∨ spots.length = 1) :
    particle_filter seed cfg fid spots ps stds =
      Except.error RegFailure.insufficientObservations := by
  have h1 : spots.length ≤ 1 := by rcases h with h | h <;> omega
  unfold particle_filter
  rw [if_pos h1]

/-- Witness for C1 at the empty observed set. -/
theorem spec_C1_witness :
    (([] : List Point).length = 0 ∨ ([] : List Point).length = 1) ∧
    particle_filter 0 demoCfg demoFid [] demoPop demoStds =
      Except.error RegFailure.insufficientObservations :=
  ⟨Or.inl rfl, spec_C1_degenerate_rejection 0 demoCfg demoFid [] demoPop demoStds (Or.inl rfl)⟩

/-- Claim C2 (evaluation of the code at the failing input): the per-image
loop has no exception handler, so with a batch of two wells where `A1.png`
raises a typed registration failure and `A2.png` would register fine, the
batch result is the propagated failure — the second well is never
processed, contradicting the claim that one bad well never aborts the
others. -/
theorem spec_C2_batch_aborts :
    demoBatchReg "A2.png" = Except.ok idTransform ∧
    processBatch demoBatchReg ["A1.png", "A2.png"] =
      Except.error RegFailure.insufficientObservations :=
  ⟨rfl, rfl⟩

/-- Claim C3: for a fixed seed, identical inputs give identical particle
trajectories and the same final transform.  The engine model threads an
explicit deterministic random stream, so the run is a pure function of
`(seed, cfg, fiducials, spots, particles, stds)`. -/
theorem spec_C3_deterministic (seed1 seed2 : ℕ) (cfg1 cfg2 : FilterConfig)
    (fid1 fid2 spots1 spots2 : List Point) (ps1 ps2 : List Particle)
    (stds1 stds2 : Stds) (h1 : seed1 = seed2) (h2 : cfg1 = cfg2)
    (h3 : fid1 = fid2) (h4 : spots1 = spots2) (h5 : ps1 = ps2)
    (h6 : stds1 = stds2) :
    particleTrajectory seed1 cfg1 stds1 fid1 spots1 ps1 =
      particleTrajectory seed2 cfg2 stds2 fid2 spots2 ps2 ∧
    particle_filter seed1 cfg1 fid1 spots1 ps1 stds1 =
      particle_filter seed2 cfg2 fid2 spots2 ps2 stds2 := by
  subst h1 h2 h3 h4 h5 h6
  exact ⟨rfl, rfl⟩

/-- Witness for C3 at a concrete run. -/
theorem spec_C3_witness :
    ((0 : ℕ) = 0 ∧ demoCfg = demoCfg ∧ demoFid = demoFid ∧ demoSpots = demoSpots ∧
      demoPop = demoPop ∧ demoStds = demoStds) ∧
    particleTrajectory 0 demoCfg demoStds demoFid demoSpots demoPop =
      particleTrajectory 0 demoCfg demoStds demoFid demoSpots demoPop ∧
    particle_filter 0 demoCfg demoFid demoSpots demoPop demoStds =
      particle_filter 0 demoCfg demoFid demoSpots demoPop demoStds :=
  ⟨⟨rfl, rfl, rfl, rfl, rfl, rfl⟩,
    spec_C3_deterministic 0 0 demoCfg demoCfg demoFid demoFid demoSpots demoSpots
      demoPop demoPop demoStds demoStds rfl rfl rfl rfl rfl rfl⟩

/-- Claim C5: the Transform Applier maps the 2x3 affine transform
`p' = A·p + t` over the entire reference grid: the output has the same
length and its `i`-th point is the image of the `i`-th grid point.  The
operation is a pure function of `(ps, t)`. -/
theorem spec_C5_applier_maps_grid (t : Transform) (ps : List Point) (i : ℕ) :
    (cvTransform ps t).length = ps.length ∧
    (cvTransform ps t)[i]? = (ps[i]?).map (applyPoint t) := by
  unfold cvTransform
  constructor <;> simp

/-- Claim C7: applying a valid (invertible) similarity transform and then
its inverse to a point set returns the original coordinates — exactly, over
rational arithmetic. -/
theorem spec_C7_roundtrip (t : Transform) (ps : List Point)
    (h : detLinear t ≠ 0) :
    cvTransform (cvTransform ps t) (invTransform t) = ps := by
  unfold cvTransform
  rw [List.map_map]
  have hcomp : applyPoint (invTransform t) ∘ applyPoint t = id :=
    funext fun p => applyPoint_invTransform t h p
  rw [hcomp, List.map_id]

/-- Witness for C7 at a concrete rotation-and-scale transform. -/
theorem spec_C7_witness :
    detLinear demoT7 ≠ 0 ∧
    cvTransform (cvTransform demoPs7 demoT7) (invTransform demoT7) = demoPs7 :=
  ⟨by norm_num [detLinear, demoT7],
    spec_C7_roundtrip demoT7 demoPs7 (by norm_num [detLinear, demoT7])⟩

/-- Claim C8: the Reference Grid Generator is deterministic — equal
arguments give equal point sets (values and row-major order) — and the grid
has exactly rows×columns points. -/
theorem spec_C8_grid_deterministic (c1 c2 : Point) (r1 r2 k1 k2 : ℕ)
    (d1 d2 : ℚ) (hc : c1 = c2) (hr : r1 = r2) (hk : k1 = k2) (hd : d1 = d2) :
    create_reference_grid c1 r1 k1 d1 = create_reference_grid c2 r2 k2 d2 ∧
    (create_reference_grid c1 r1 k1 d1).length = r1 * k1 := by
  subst hc hr hk hd
  refine ⟨rfl, ?_⟩
  simp only [create_reference_grid]
  rw [List.length_flatMap, sum_map_length_const _ k1 _ fun a _ => by
    rw [List.length_map, List.length_range], List.length_range]

/-- Witness for C8 at a 2x3 grid. -/
theorem spec_C8_witness :
    ((⟨0, 0⟩ : Point) = ⟨0, 0⟩ ∧ (2 : ℕ) = 2 ∧ (3 : ℕ) = 3 ∧ (5 : ℚ) = 5) ∧
    create_reference_grid ⟨0, 0⟩ 2 3 5 = create_reference_grid ⟨0, 0⟩ 2 3 5 ∧
    (create_reference_grid ⟨0, 0⟩ 2 3 5).length = 2 * 3 :=
  ⟨⟨rfl, rfl, rfl, rfl⟩,
    spec_C8_grid_deterministic ⟨0, 0⟩ ⟨0, 0⟩ 2 2 3 3 5 5 rfl rfl rfl rfl⟩

/-- Claim C10: the four-parameter logistic evaluated at its inflection
dilution `x = C` returns the midpoint of the asymptotes, `(A + D) / 2`,
exactly over rational arithmetic, for every nonzero `C`. -/
theorem spec_C10_fourPL_midpoint (A : ℚ) (B : ℤ) (C D : ℚ) (h : C ≠ 0) :
    fourPL C A B C D = (A + D) / 2 := by
  unfold fourPL
  rw [div_self h, one_zpow]
  ring

/-- Witness for C10 at `A = 3`, `B = 2`, `C = 5`, `D = 1`. -/
theorem spec_C10_witness :
    (5 : ℚ) ≠ 0 ∧ fourPL 5 3 2 5 1 = (3 + 1) / 2 :=
  ⟨by norm_num, spec_C10_fourPL_midpoint 3 2 5 1 (by norm_num)⟩

/-- The normalization step, applied to any population with non-negative
weights, yields non-negative weights summing to 1 whenever it succeeds. -/
theorem normalizeWeights_ok (ps qs : List Particle)
    (hnn : ∀ p ∈ ps, 0 ≤ p.weight)
    (hw : normalizeWeights ps = Except.ok qs) :
    (∀ q ∈ qs, 0 ≤ q.weight) ∧ (qs.map Particle.weight).sum = 1 := by
  unfold normalizeWeights at hw
  split_ifs at hw with h0
  injection hw with hw
  have hSnn : 0 ≤ (ps.map Particle.weight).sum := by
    apply List.sum_nonneg
    intro a ha
    obtain ⟨p, hp, rfl⟩ := List.mem_map.mp ha
    exact hnn p hp
  have hSpos : 0 < (ps.map Particle.weight).sum :=
    lt_of_le_of_ne hSnn (Ne.symm h0)
  subst hw
  constructor
  · intro q hq
    obtain ⟨p, hp, rfl⟩ := List.mem_map.mp hq
    exact div_nonneg (hnn p hp) hSpos.le
  · have hmaps : ((ps.map fun p =>
        { p with weight := p.weight / (ps.map Particle.weight).sum }).map
          Particle.weight) =
        (ps.map Particle.weight).map fun a => a / (ps.map Particle.weight).sum := by
      rw [List.map_map, List.map_map]
      rfl
    rw [hmaps, sum_map_div, div_self h0]

/-- Claim C4: every particle's weight initializes to `1/count` at population
creation, and after every Weighting phase of the filter the weights are
non-negative and sum to 1 — exactly, over rational arithmetic. -/
theorem spec_C4_weight_invariants (seed : ℕ) (mean : Point) (stds0 : Stds)
    (sm am : ℚ) (n : ℕ) (stds : Stds) (fid spots : List Point)
    (ps qs : List Particle) (hw : weightPhase stds fid spots ps = Except.ok qs) :
    (∀ p ∈ create_gaussian_particles seed mean stds0 sm am n, p.weight = 1 / (n : ℚ)) ∧
    (∀ q ∈ qs, 0 ≤ q.weight) ∧ (qs.map Particle.weight).sum = 1 := by
  refine ⟨?_, ?_⟩
  · intro p hp
    simp only [create_gaussian_particles, List.mem_map, List.mem_range] at hp
    obtain ⟨i, _, rfl⟩ := hp
    rfl
  · refine normalizeWeights_ok _ qs ?_ hw
    intro p hp
    obtain ⟨p0, _, rfl⟩ := List.mem_map.mp hp
    exact scoreParticle_nonneg stds fid spots p0

/-- Witness for C4: the one-particle weighting on the demo inputs returns
the population with weight 1. -/
theorem spec_C4_witness :
    weightPhase demoStds demoFid demoSpots demoPop = Except.ok demoPopW ∧
    (∀ p ∈ create_gaussian_particles 7 ⟨0, 0⟩ demoStds 1 0 2, p.weight = 1 / ((2 : ℕ) : ℚ)) ∧
    (∀ q ∈ demoPopW, 0 ≤ q.weight) ∧ (demoPopW.map Particle.weight).sum = 1 := by
  have hw : weightPhase demoStds demoFid demoSpots demoPop = Except.ok demoPopW := by
    norm_num [weightPhase, normalizeWeights, scoreParticle, likeKernel, minSqDist, sqDist,
      applyPoint, particleTransform, cosQ, sinQ, demoStds, demoFid, demoSpots, demoPop, demoPopW]
  exact ⟨hw, spec_C4_weight_invariants 7 ⟨0, 0⟩ demoStds 1 0 2 demoStds demoFid demoSpots
    demoPop demoPopW hw⟩

/-- Claim C6: every transform the registration engine returns is a
similarity transform — equal diagonal entries, opposite off-diagonal
entries, and the determinant of the linear part equal to the square of the
uniform scale (no shear or reflection). -/
theorem spec_C6_similarity_output (seed : ℕ) (cfg : FilterConfig)
    (fid spots : List Point) (ps : List Particle) (stds : Stds) (T : Transform)
    (h : particle_filter seed cfg fid spots ps stds = Except.ok T) :
    T.m00 = T.m11 ∧ T.m01 = -T.m10 ∧ ∃ s : ℚ, detLinear T = s ^ 2 := by
  unfold particle_filter at h
  split_ifs at h with hlen
  split at h
  · simp at h
  · split at h
    · simp at h
    · injection h with h
      subst h
      exact ⟨rfl, rfl, _, detLinear_particleTransform _⟩

/-- Witness for C6: a zero-iteration run on the demo inputs returns the
identity transform, which satisfies the similarity invariants. -/
theorem spec_C6_witness :
    particle_filter 7 demoCfg demoFid demoSpots demoPop demoStds = Except.ok demoT6 ∧
    (demoT6.m00 = demoT6.m11 ∧ demoT6.m01 = -demoT6.m10 ∧ ∃ s : ℚ, detLinear demoT6 = s ^ 2) := by
  have h : particle_filter 7 demoCfg demoFid demoSpots demoPop demoStds = Except.ok demoT6 := by
    norm_num [particle_filter, filterLoop, weightPhase, normalizeWeights, scoreParticle,
      likeKernel, minSqDist, sqDist, applyPoint, particleTransform, weightedMeanParticle,
      cosQ, sinQ, demoCfg, demoStds, demoFid, demoSpots, demoPop, demoT6]
  exact ⟨h, spec_C6_similarity_output 7 demoCfg demoFid demoSpots demoPop demoStds demoT6 h⟩

/-- Counterexample to claim C9 as stated: the file name `A1.tiff` contains
`.tif` and starts with a well letter and a digit, so the claim says it is
processed; but its sort-key slice `x[1:-4]` is `"1."`, `int` raises
`ValueError`, and the loop processes nothing. -/
theorem spec_C9_counterexample :
    isImageName "A1.tiff" = true ∧ isWellName "A1.tiff" = true ∧
    wellImagesOf ["A1.tiff"] = Except.error PyErr.valueError :=
  ⟨rfl, rfl, rfl⟩

/-- Claim C9 (amended): when every selected well image's name between the
leading character and the final four characters parses as a Python integer
literal, the loop processes exactly the files containing `.png`, `.tif` or
`.jpg` whose name starts with a letter `A`-`P` and a digit, in ascending
order of the key `(leading letter, numeric value of x[1:-4])`; otherwise the
key computation raises `ValueError` and no file is processed. -/
theorem spec_C9_selection_and_order (files : List String)
    (hp : ∀ f ∈ selectedWells files, (pyInt (pySlice f.toList)).isSome = true) :
    ∃ L, wellImagesOf files = Except.ok L ∧
      (∀ f, f ∈ L ↔ f ∈ files ∧ isImageName f = true ∧ isWellName f = true) ∧
      L.Sorted keyLe := by
  refine ⟨List.insertionSort keyLe (selectedWells files), ?_, ?_, ?_⟩
  · unfold wellImagesOf
    rw [if_pos]
    rw [List.all_eq_true]
    exact hp
  · intro f
    rw [List.Perm.mem_iff (List.perm_insertionSort keyLe _)]
    simp only [selectedWells, List.mem_filter]
    tauto
  · exact List.sorted_insertionSort keyLe _

/-- Witness for C9 at a concrete directory: the wells sort as
`A9, A10, B1` — `A10` after `A9` — and the non-image file is skipped. -/
theorem spec_C9_witness :
    (∀ f ∈ selectedWells demoFiles, (pyInt (pySlice f.toList)).isSome = true) ∧
    (∃ L, wellImagesOf demoFiles = Except.ok L ∧
      (∀ f, f ∈ L ↔ f ∈ demoFiles ∧ isImageName f = true ∧ isWellName f = true) ∧
      L.Sorted keyLe) ∧
    wellImagesOf demoFiles = Except.ok ["A9.png", "A10.png", "B1.tif"] := by
  have hp : ∀ f ∈ selectedWells demoFiles, (pyInt (pySlice f.toList)).isSome = true := by
    decide
  exact ⟨hp, spec_C9_selection_and_order demoFiles hp, rfl⟩

end Serology
